import Mathlib

/-!
Shallow embedding of `custom_components/roborock/config_flow.py`: the
Roborock config flow (user / code credential steps) and options flow
(camera / vacuum), together with the voluptuous validator schemas the
file builds (`POSITIVE_FLOAT_SCHEMA`, `ROTATION_SCHEMA`, `PERCENT_SCHEMA`,
`CAMERA_SCHEMA`).

Python values that flow through the validators are modelled by `PyVal`;
floats are modelled as exact rationals (the numeric literals appearing in
this program are all exactly representable).  Fallible operations return
`Option`.  The external `RoborockClient` (construction plus
`request_code`, and `code_login`) is modelled by oracle functions passed
to the step handlers, one outcome per call.
-/

namespace Roborock

/-- A Python value as seen by the voluptuous validators and the flow
handlers.  Floats are modelled as exact rationals. -/
inductive PyVal where
  | str (s : String)
  | int (n : Int)
  | float (q : ℚ)
  | bool (b : Bool)
  | none_
  deriving DecidableEq, Repr

/-! ### Decimal digits: `str`/`int`/`float` builtins

Python's `str` on an `int` prints sign and decimal digits; `int` and
`float` on a `str` parse decimal notation (we model the core decimal
grammar: optional sign, digits, and for floats one optional point —
Python additionally strips whitespace and allows underscores and
exponents, none of which this program's schemas rely on). -/

/-- Big-endian decimal digits of a natural number, with explicit fuel so
the definition is structural (kernel-reducible).  `natDigits` always
supplies enough fuel. -/
def natDigitsAux : Nat → Nat → List Nat
  | 0, _ => []
  | fuel + 1, n => if n < 10 then [n] else natDigitsAux fuel (n / 10) ++ [n % 10]

/-- Big-endian decimal digits of `n` (`[0]` for `0`, as Python prints). -/
def natDigits (n : Nat) : List Nat :=
  natDigitsAux (n + 1) n

/-- The character for a decimal digit value. -/
def digitChar (d : Nat) : Char :=
  Char.ofNat (48 + d)

/-- Python `str` of a natural number. -/
def natRepr (n : Nat) : String :=
  String.mk ((natDigits n).map digitChar)

/-- Python `str` of an `int`: optional minus sign, then decimal digits. -/
def intRepr (n : Int) : String :=
  if n < 0 then "-" ++ natRepr n.natAbs else natRepr n.natAbs

/-- Value of a decimal digit character, if it is one. -/
def digitVal? (c : Char) : Option Nat :=
  if '0' ≤ c ∧ c ≤ '9' then some (c.toNat - 48) else none

/-- Fold a digit-character list into its value; `none` if any character
is not a digit.  The empty list yields `some 0` (emptiness is checked by
the callers that require digits). -/
def digitsVal? (cs : List Char) : Option Nat :=
  cs.foldl (fun acc c => acc.bind fun a => (digitVal? c).map fun d => a * 10 + d) (some 0)

/-- All-digit, non-empty parse of a natural number. -/
def parseNatChars (cs : List Char) : Option Nat :=
  match cs with
  | [] => none
  | _ => digitsVal? cs

/-- Python `int(s)` on a string: optional sign, then decimal digits. -/
def pyParseInt (s : String) : Option Int :=
  match s.data with
  | [] => none
  | c :: rest =>
    if c = '-' then (parseNatChars rest).map (fun n => -(n : Int))
    else if c = '+' then (parseNatChars rest).map (fun n => (n : Int))
    else (parseNatChars (c :: rest)).map (fun n => (n : Int))

/-- Python `float(s)` on a string: optional sign, digits with at most one
decimal point, at least one digit overall. -/
def pyParseFloat (s : String) : Option ℚ :=
  let (sgn, cs) : Bool × List Char :=
    match s.data with
    | '-' :: r => (true, r)
    | '+' :: r => (false, r)
    | r => (false, r)
  let ip := cs.takeWhile (fun c => c ≠ '.')
  let rest := cs.dropWhile (fun c => c ≠ '.')
  let fp? : Option (List Char) :=
    match rest with
    | [] => some []
    | _ :: r => if r.contains '.' then none else some r
  match fp? with
  | none => none
  | some fp =>
    if ip = [] ∧ fp = [] then none
    else
      (digitsVal? ip).bind fun i =>
        (digitsVal? fp).map fun f =>
          let p := 10 ^ fp.length
          let n : Int := (i * p + f : Nat)
          mkRat (if sgn then -n else n) p

/-- Decimal fraction digits of `r / d` (`0 ≤ r < d`), with fuel bounding
the number of emitted digits (Python's float repr is itself finite). -/
def fracDigits : Nat → Nat → Nat → List Nat
  | 0, _, _ => []
  | fuel + 1, r, d =>
    if r = 0 then []
    else (r * 10 / d) :: fracDigits fuel (r * 10 % d) d

/-- Python `str` of a float, under the rational model: an integral value
prints as `n.0`; otherwise sign, integer part, point, fraction digits.
(Python prints the shortest round-tripping decimal; for values entered
as finite decimals — the only floats this program str-ifies — the exact
expansion printed here coincides with it.) -/
def floatRepr (q : ℚ) : String :=
  if q.den = 1 then intRepr q.num ++ ".0"
  else
    let m := q.num.natAbs
    (if q.num < 0 then "-" else "")
      ++ natRepr (m / q.den) ++ "."
      ++ String.mk ((fracDigits 64 (m % q.den) q.den).map digitChar)

/-- Python `str(v)`. -/
def pyStr : PyVal → String
  | .str s => s
  | .int n => intRepr n
  | .float q => floatRepr q
  | .bool b => if b then "True" else "False"
  | .none_ => "None"

/-- Truncation of a rational toward zero, as Python `int(float)` does. -/
def ratTrunc (q : ℚ) : Int :=
  if 0 ≤ q.num then (q.num.natAbs / q.den : Nat) else -((q.num.natAbs / q.den : Nat) : Int)

/-- Python `int(v)`: `none` models a `ValueError`/`TypeError`. -/
def pyInt? : PyVal → Option Int
  | .str s => pyParseInt s
  | .int n => some n
  | .float q => some (ratTrunc q)
  | .bool b => some (if b then 1 else 0)
  | .none_ => none

/-- Python `float(v)`: `none` models a `ValueError`/`TypeError`. -/
def pyFloat? : PyVal → Option ℚ
  | .str s => pyParseFloat s
  | .int n => some (n : ℚ)
  | .float q => some q
  | .bool b => some (if b then 1 else 0)
  | .none_ => none

/-- The numeric value of a Python number (`bool` counts as a number), for
order comparisons; `none` for non-numbers, where Python `<=`/`>=` raises
`TypeError`. -/
def pyNum? : PyVal → Option ℚ
  | .int n => some (n : ℚ)
  | .float q => some q
  | .bool b => some (if b then 1 else 0)
  | _ => none

/-- Python `==` as the voluptuous `In` container test uses it: strings
compare by content, numbers cross-kind by value, everything else is
unequal. -/
def pyEq (a b : PyVal) : Bool :=
  match a, b with
  | .str s, .str t => s = t
  | .none_, .none_ => true
  | _, _ =>
    match pyNum? a, pyNum? b with
    | some x, some y => x = y
    | _, _ => false

/-! ### Voluptuous validators

A validator maps a value to `some` transformed value or `none`
(= raising `Invalid`).  `vol.All(*validators, discriminant=...)` keeps
its sub-validator list and an optional discriminant.  voluptuous runs a
`vol.All` two ways:

  * `__call__` (a direct invocation, e.g. when this program computes a
    form default) runs the listed validators in order, ignoring the
    discriminant;
  * the compiled path (`_WithSubValidators._run`, used when the
    validator sits inside a `vol.Schema`, e.g. form submission
    validation) first replaces the validator list by
    `discriminant(value, validators)` when a discriminant is present.
-/

/-- One voluptuous validator. -/
abbrev Validator := PyVal → Option PyVal

/-- Run a list of validators in sequence, as `All._exec` does: each
output feeds the next, and a failure anywhere fails the whole chain. -/
def runChain (fs : List Validator) (v : PyVal) : Option PyVal :=
  fs.foldl (fun acc f => acc.bind f) (some v)

/-- `vol.All(...)` : its sub-validators and optional discriminant. -/
structure VolAll where
  validators : List Validator
  discr : Option (PyVal → List Validator → List Validator)

/-- Direct `__call__` of a `vol.All`: listed order, discriminant
ignored. -/
def VolAll.call (a : VolAll) (v : PyVal) : Option PyVal :=
  runChain a.validators v

/-- Schema-compiled run of a `vol.All` (`_WithSubValidators._run`): the
discriminant, when present, rewrites the sub-validator list first. -/
def VolAll.run (a : VolAll) (v : PyVal) : Option PyVal :=
  runChain
    (match a.discr with
     | some d => d v a.validators
     | none => a.validators) v

/-- `vol.Coerce(float)`. -/
def coerceFloat : Validator := fun v => (pyFloat? v).map .float

/-- `vol.Coerce(int)`. -/
def coerceInt : Validator := fun v => (pyInt? v).map .int

/-- `vol.Coerce(str)`: Python `str()` never raises. -/
def coerceStr : Validator := fun v => some (.str (pyStr v))

/-- `vol.Range(min, max)` (both bounds inclusive, either optional): the
value must be a number within the bounds; a non-number raises. -/
def volRange (lo hi : Option ℚ) : Validator := fun v =>
  match pyNum? v with
  | some q =>
    if (match lo with | some l => decide (l ≤ q) | none => true) &&
       (match hi with | some h => decide (q ≤ h) | none => true) then some v else none
  | none => none

/-- `vol.In(container)`: membership by Python `==`. -/
def volIn (container : List PyVal) : Validator := fun v =>
  if container.any (pyEq v) then some v else none

/-- `discriminant(_, validators)` from the source: returns the reversed
validator list (`list(validators).__reversed__()`). -/
def discriminant (_ : PyVal) (validators : List Validator) : List Validator :=
  validators.reverse

/-- `POSITIVE_FLOAT_SCHEMA = vol.All(vol.Coerce(float), vol.Range(min=0))`. -/
def POSITIVE_FLOAT_SCHEMA : VolAll :=
  ⟨[coerceFloat, volRange (some 0) none], none⟩

/-- `ROTATION_SCHEMA = vol.All(vol.Coerce(int), vol.Coerce(str),
vol.In(["0", "90", "180", "270"]), discriminant=discriminant)`. -/
def ROTATION_SCHEMA : VolAll :=
  ⟨[coerceInt, coerceStr, volIn [.str "0", .str "90", .str "180", .str "270"]],
   some discriminant⟩

/-- `PERCENT_SCHEMA = vol.All(vol.Coerce(float), vol.Range(min=0, max=100))`. -/
def PERCENT_SCHEMA : VolAll :=
  ⟨[coerceFloat, volRange (some 0) (some 100)], none⟩

/-! ### Constants

Modelled from the spec: the string constants live in the repository's
`const` module, which is not included under `src/`; the names follow the imports
of `config_flow.py` and the claims do not depend on any particular
value. -/

def CONF_ENTRY_USERNAME : String := "username"
def CONF_ENTRY_CODE : String := "code"
def CONF_USER_DATA : String := "user_data"
def CONF_BASE_URL : String := "base_url"
def CONF_PLATFORM : String := "platform"
def CONF_MAP_TRANSFORM : String := "map_transform"
def CONF_SCALE : String := "scale"
def CONF_ROTATE : String := "rotate"
def CONF_TRIM : String := "trim"
def CONF_LEFT : String := "left"
def CONF_RIGHT : String := "right"
def CONF_TOP : String := "top"
def CONF_BOTTOM : String := "bottom"
def CAMERA : String := "camera"
def VACUUM : String := "vacuum"

/-! The six dotted-path option keys, built as the source's f-strings
build them. -/

def kScale : String := CONF_MAP_TRANSFORM ++ "." ++ CONF_SCALE
def kRotate : String := CONF_MAP_TRANSFORM ++ "." ++ CONF_ROTATE
def kLeft : String := CONF_MAP_TRANSFORM ++ "." ++ CONF_TRIM ++ "." ++ CONF_LEFT
def kRight : String := CONF_MAP_TRANSFORM ++ "." ++ CONF_TRIM ++ "." ++ CONF_RIGHT
def kTop : String := CONF_MAP_TRANSFORM ++ "." ++ CONF_TRIM ++ "." ++ CONF_TOP
def kBottom : String := CONF_MAP_TRANSFORM ++ "." ++ CONF_TRIM ++ "." ++ CONF_BOTTOM

/-- `CAMERA_OPTIONS`: dotted-path keys and their default values. -/
def CAMERA_OPTIONS : List (String × PyVal) :=
  [(kScale, .float 1), (kRotate, .int 0), (kLeft, .float 0),
   (kRight, .float 0), (kTop, .float 0), (kBottom, .float 0)]

/-- `CAMERA_SCHEMA`: dotted-path keys to their validators. -/
def CAMERA_SCHEMA : List (String × VolAll) :=
  [(kScale, POSITIVE_FLOAT_SCHEMA), (kRotate, ROTATION_SCHEMA),
   (kLeft, PERCENT_SCHEMA), (kRight, PERCENT_SCHEMA),
   (kTop, PERCENT_SCHEMA), (kBottom, PERCENT_SCHEMA)]

/-! ### Dictionaries

Python dicts are modelled as association lists with insertion-order
semantics: assignment replaces an existing key in place and appends a
fresh one. -/

/-- Python `d[k] = v` on an association list. -/
def assocSet {α : Type} : List (String × α) → String → α → List (String × α)
  | [], k, v => [(k, v)]
  | (k', v') :: rest, k, v =>
    if k' = k then (k, v) :: rest else (k', v') :: assocSet rest k v

/-- Python `d.get(k)` on an association list. -/
def assocGet {α : Type} : List (String × α) → String → Option α
  | [], _ => none
  | (k', v') :: rest, k => if k' = k then some v' else assocGet rest k

/-- A nested dict value: a leaf Python value or a sub-dict. -/
inductive NVal where
  | leaf (v : PyVal)
  | node (m : List (String × NVal))

/-- A (possibly nested) options dict. -/
abbrev NDict := List (String × NVal)

/-- `s.split('.')` on the character list, by structural recursion. -/
def splitDotsAux : List Char → List (List Char)
  | [] => [[]]
  | c :: rest =>
    let r := splitDotsAux rest
    if c = '.' then [] :: r
    else
      match r with
      | [] => [[c]]
      | g :: gs => (c :: g) :: gs

/-- `key_string.split(".")`. -/
def splitDots (s : String) : List String :=
  (splitDotsAux s.data).map String.mk

/-- Modelled from the spec: `set_nested_dict` from the repository's
`utils` module (not included under `src/`) writes a value at a
dotted-path key of the nested options mapping, descending into the
sub-dict of each intermediate path segment and creating empty sub-dicts
where missing. -/
def setNestedPath : NDict → List String → PyVal → NDict
  | m, [], _ => m
  | m, [k], v => assocSet m k (.leaf v)
  | m, k :: ks, v =>
    let sub : NDict :=
      match assocGet m k with
      | some (.node s) => s
      | _ => []
    assocSet m k (.node (setNestedPath sub ks v))

/-- `set_nested_dict(data, key_string, value)` with a dotted key. -/
def set_nested_dict (m : NDict) (key : String) (v : PyVal) : NDict :=
  setNestedPath m (splitDots key) v

/-- Modelled from the spec: `get_nested_dict` from the repository's
`utils` module (not included under `src/`) reads the value at a
dotted-path key of the nested options mapping, `none` when any segment
is missing or a leaf stands where a sub-dict is needed. -/
def getNestedPath : NDict → List String → Option PyVal
  | _, [] => none
  | m, [k] =>
    match assocGet m k with
    | some (.leaf v) => some v
    | _ => none
  | m, k :: ks =>
    match assocGet m k with
    | some (.node s) => getNestedPath s ks
    | _ => none

/-- `get_nested_dict(data, key_string, default)` with a dotted key. -/
def get_nested_dict (m : NDict) (key : String) (dflt : PyVal) : PyVal :=
  (getNestedPath m (splitDots key)).getD dflt

/-! ### The config flow (`RoborockFlowHandler`) -/

/-- The external `RoborockClient` (from the `api` package, outside this
file): the flow only reads its `base_url`. -/
structure Client where
  base_url : String
  deriving DecidableEq, Repr

/-- The opaque payload behind `UserData.data` (a session token record
from the remote account service). -/
abbrev Payload := List (String × String)

/-- The external `UserData` container: the flow only reads `.data`. -/
structure UserData where
  data : Payload
  deriving DecidableEq, Repr

/-- A value stored in a created config entry's data dict. -/
inductive EntryVal where
  | str (s : String)
  | user (p : Payload)
  | none_
  deriving DecidableEq, Repr

/-- `self._username` / `self._base_url` as an entry-data value. -/
def EntryVal.ofOptStr : Option String → EntryVal
  | some s => .str s
  | none => .none_

/-- The mutable fields of a `RoborockFlowHandler` instance. -/
structure FlowState where
  errors : List (String × String)
  client : Option Client
  username : Option String
  base_url : Option String
  deriving DecidableEq, Repr

/-- `RoborockFlowHandler.__init__`: empty errors, all session fields
unset. -/
def flowInit : FlowState :=
  ⟨[], none, none, none⟩

/-- What a step handler returns to the host flow engine. -/
inductive StepResult where
  | showForm (stepId : String) (errors : List (String × String)) (dflt : String)
  | createEntry (title : Option String) (data : List (String × EntryVal))
  | abort
  deriving DecidableEq, Repr

/-- Outcome of one `RoborockClient(username)` construction plus
`await client.request_code()`: `some client` on success, `none` when
either raises. -/
abbrev CodeOracle := Option String → Option Client

/-- Outcome of one `await client.code_login(code)`: a `UserData`, a
`None` return, or an exception. -/
inductive LoginOutcome where
  | ok (d : UserData)
  | retNone
  | raised
  deriving DecidableEq, Repr

abbrev LoginOracle := Client → String → LoginOutcome

/-- `RoborockFlowHandler._request_code`: on an exception the `"auth"`
error is recorded and no client is returned. -/
def request_code (oracle : CodeOracle) (st : FlowState) :
    FlowState × Option Client :=
  match oracle st.username with
  | some c => (st, some c)
  | none => ({ st with errors := assocSet st.errors "base" "auth" }, none)

/-- `RoborockFlowHandler._login`: an exception (including the attribute
access on a missing client) records the `"auth"` error; a `None` return
records nothing; both yield no login data. -/
def login (oracle : LoginOracle) (st : FlowState) (code : String) :
    FlowState × Option UserData :=
  match st.client with
  | none => ({ st with errors := assocSet st.errors "base" "auth" }, none)
  | some c =>
    match oracle c code with
    | .ok d => (st, some d)
    | .retNone => (st, none)
    | .raised => ({ st with errors := assocSet st.errors "base" "auth" }, none)

/-- `RoborockFlowHandler.async_step_user`.  `input` is the submitted
form dict (`some username`) or `None`; `alreadyConfigured` is the host's
unique-id check (`_abort_if_unique_id_configured`). -/
def async_step_user (oracle : CodeOracle) (alreadyConfigured : Bool)
    (st : FlowState) (input : Option String) : FlowState × StepResult :=
  let st := { st with errors := [] }
  match input with
  | some username =>
    let st := { st with username := some username }
    if alreadyConfigured then (st, .abort)
    else
      match request_code oracle st with
      | (st, some client) =>
        let st := { st with client := some client, base_url := some client.base_url }
        (st, .showForm "code" st.errors "")
      | (st, none) =>
        let st := { st with errors := assocSet st.errors "base" "auth" }
        (st, .showForm "user" st.errors username)
  | none => (st, .showForm "user" st.errors "")

/-- `RoborockFlowHandler.async_step_code`.  `input` is the submitted
form dict (`some code`) or `None`. -/
def async_step_code (oracle : LoginOracle) (st : FlowState)
    (input : Option String) : FlowState × StepResult :=
  let st := { st with errors := [] }
  match input with
  | some code =>
    match login oracle st code with
    | (st, some login_data) =>
      (st, .createEntry st.username
        [(CONF_ENTRY_USERNAME, EntryVal.ofOptStr st.username),
         (CONF_USER_DATA, .user login_data.data),
         (CONF_BASE_URL, EntryVal.ofOptStr st.base_url)])
    | (st, none) =>
      let st := { st with errors := assocSet st.errors "base" "no_device" }
      (st, .showForm "code" st.errors code)
  | none => (st, .showForm "code" st.errors "")

/-! ### The options flow (`RoborockOptionsFlowHandler`) -/

/-- The mutable fields of a `RoborockOptionsFlowHandler` instance. -/
structure OptionsState where
  config_entry_options : NDict
  options : NDict

/-- `RoborockOptionsFlowHandler.__init__`: `self.options` starts as a
copy of the config entry's options. -/
def optionsInit (entryOptions : NDict) : OptionsState :=
  ⟨entryOptions, entryOptions⟩

/-- What an options-flow step returns to the host.  The camera form's
field defaults are computed by running each validator directly on the
stored (or default) value; `none` defaults model an uncaught exception
there. -/
inductive OptionsStepResult where
  | showUserForm
  | showCameraForm (defaults : Option (List (String × PyVal)))
  | createEntry (title : String) (data : NDict)

/-- The camera form's per-field defaults:
`CAMERA_SCHEMA.get(key)(get_nested_dict(self.options, key, value))`. -/
def cameraFormDefaults (options : NDict) : Option (List (String × PyVal)) :=
  CAMERA_OPTIONS.mapM fun kv =>
    ((assocGet CAMERA_SCHEMA kv.1).bind fun sch =>
      sch.call (get_nested_dict options kv.1 kv.2)).map fun d => (kv.1, d)

/-- `RoborockOptionsFlowHandler.async_step_camera`: a submission is
re-keyed through `set_nested_dict` and persisted; otherwise the camera
form is shown. -/
def options_async_step_camera (st : OptionsState)
    (input : Option (List (String × PyVal))) : OptionsState × OptionsStepResult :=
  match input with
  | some m =>
    if m ≠ [] then
      let data := m.foldl (fun d kv => set_nested_dict d kv.1 kv.2) []
      let st := { st with options := data }
      (st, .createEntry "" st.options)
    else (st, .showCameraForm (cameraFormDefaults st.options))
  | none => (st, .showCameraForm (cameraFormDefaults st.options))

/-- `RoborockOptionsFlowHandler.async_step_vacuum` →
`_update_options`. -/
def options_async_step_vacuum (st : OptionsState) :
    OptionsState × OptionsStepResult :=
  (st, .createEntry "" st.options)

/-- `RoborockOptionsFlowHandler.async_step_user`: dispatch on the
selected platform. -/
def options_async_step_user (st : OptionsState)
    (input : Option (List (String × PyVal))) : OptionsState × OptionsStepResult :=
  match input with
  | some m =>
    if m ≠ [] then
      if assocGet m CONF_PLATFORM = some (.str CAMERA) then
        options_async_step_camera st none
      else if assocGet m CONF_PLATFORM = some (.str VACUUM) then
        options_async_step_vacuum st
      else (st, .showUserForm)
    else (st, .showUserForm)
  | none => (st, .showUserForm)

/-- The host's validation of a camera-form submission: each submitted
key's value runs through the schema-compiled validator
(`VolAll.run`); an unknown key or a failing validator rejects the
submission. -/
def validateCamera : List (String × PyVal) → Option (List (String × PyVal))
  | [] => some []
  | kv :: rest =>
    match (assocGet CAMERA_SCHEMA kv.1).bind fun sch => sch.run kv.2 with
    | none => none
    | some v => (validateCamera rest).map fun vs => (kv.1, v) :: vs

/-! ### The host flow engine: reachable step states

A config flow starts with the host invoking the user step; after a step
handler returns a form, the next submission is dispatched to the step
the form named.  Each transition carries its own oracle outcome and
host-side unique-id answer, so any interleaving of external behavior is
covered. -/

inductive ConfigReaches : FlowState → String → Prop where
  | start : ConfigReaches flowInit "user"
  | stepUser (oracle : CodeOracle) (cfg : Bool) (st st' : FlowState)
      (input : Option String) (sid : String) (e : List (String × String))
      (d : String) :
      ConfigReaches st "user" →
      async_step_user oracle cfg st input = (st', .showForm sid e d) →
      ConfigReaches st' sid
  | stepCode (oracle : LoginOracle) (st st' : FlowState)
      (input : Option String) (sid : String) (e : List (String × String))
      (d : String) :
      ConfigReaches st "code" →
      async_step_code oracle st input = (st', .showForm sid e d) →
      ConfigReaches st' sid

/-! ### Lemmas: step frame facts -/

lemma login_frame (oracle : LoginOracle) (st : FlowState) (code : String) :
    ((login oracle st code).1).username = st.username ∧
    ((login oracle st code).1).client = st.client ∧
    ((login oracle st code).1).base_url = st.base_url := by
  unfold login
  cases hc : st.client with
  | none => simp
  | some c => cases ho : oracle c code <;> simp [ho, hc]

lemma async_step_code_frame (oracle : LoginOracle) (st : FlowState)
    (input : Option String) :
    ((async_step_code oracle st input).1).username = st.username ∧
    ((async_step_code oracle st input).1).client = st.client ∧
    ((async_step_code oracle st input).1).base_url = st.base_url := by
  unfold async_step_code
  cases input with
  | none => simp
  | some code =>
    have hl := login_frame oracle { st with errors := [] } code
    dsimp only
    split
    · rename_i st2 ld heq
      rw [heq] at hl
      simp_all
    · rename_i st2 heq
      rw [heq] at hl
      simp_all

lemma async_step_code_snd_form (oracle : LoginOracle) (st : FlowState)
    (input : Option String) (sid : String) (e : List (String × String))
    (d : String)
    (h : (async_step_code oracle st input).2 = .showForm sid e d) :
    sid = "code" := by
  unfold async_step_code at h
  cases input with
  | none =>
    simp at h
    exact h.1.symm
  | some code =>
    dsimp only at h
    split at h
    · simp at h
    · simp at h
      exact h.1.symm

/-- The step invariant behind the two-step flow: any state shown the
code form has the username, client handle and base URL set. -/
lemma reaches_code_fields :
    ∀ st sid, ConfigReaches st sid → sid = "code" →
      st.username.isSome ∧ st.client.isSome ∧ st.base_url.isSome := by
  intro st sid h
  induction h with
  | start => intro hc; exact absurd hc (by decide)
  | stepUser oracle cfg st1 st' input sid1 e d hprev heq ih =>
    intro hc
    subst hc
    cases input with
    | none => simp [async_step_user] at heq
    | some username =>
      cases cfg with
      | true => simp [async_step_user] at heq
      | false =>
        cases horacle : oracle (some username) with
        | some c =>
          simp [async_step_user, request_code, horacle] at heq
          rw [← heq.1]
          simp
        | none =>
          simp [async_step_user, request_code, horacle] at heq
  | stepCode oracle st1 st' input sid1 e d hprev heq ih =>
    intro hc
    have hfields := ih rfl
    have hst' : st' = (async_step_code oracle st1 input).1 := by rw [heq]
    have hframe := async_step_code_frame oracle st1 input
    rw [← hst'] at hframe
    rw [hframe.1, hframe.2.1, hframe.2.2]
    exact hfields

/-! ### Lemmas: decimal printing and parsing round-trip -/

/-- Value of a big-endian digit list. -/
def digitsToNat (ds : List Nat) : Nat :=
  ds.foldl (fun a d => a * 10 + d) 0

lemma digitVal_digitChar {d : Nat} (h : d < 10) :
    digitVal? (digitChar d) = some d := by
  interval_cases d <;> decide

lemma digitChar_ne_dash {d : Nat} (h : d < 10) : digitChar d ≠ '-' := by
  interval_cases d <;> decide

lemma digitChar_ne_plus {d : Nat} (h : d < 10) : digitChar d ≠ '+' := by
  interval_cases d <;> decide

lemma digitsVal_foldl_map {ds : List Nat} (h : ∀ d ∈ ds, d < 10) :
    ∀ a : Nat,
      (ds.map digitChar).foldl
        (fun acc c => acc.bind fun x => (digitVal? c).map fun dd => x * 10 + dd)
        (some a) = some (ds.foldl (fun x d => x * 10 + d) a) := by
  induction ds with
  | nil => intro a; rfl
  | cons d ds ih =>
    intro a
    have hd : d < 10 := h d (List.mem_cons_self d ds)
    have hds : ∀ x ∈ ds, x < 10 := fun x hx => h x (List.mem_cons_of_mem d hx)
    simp only [List.map_cons, List.foldl_cons, Option.bind_some,
      digitVal_digitChar hd, Option.map_some]
    exact ih hds (a * 10 + d)

lemma digitsVal_map {ds : List Nat} (h : ∀ d ∈ ds, d < 10) :
    digitsVal? (ds.map digitChar) = some (digitsToNat ds) :=
  digitsVal_foldl_map h 0

lemma digitsToNat_append (xs : List Nat) (d : Nat) :
    digitsToNat (xs ++ [d]) = digitsToNat xs * 10 + d := by
  simp [digitsToNat, List.foldl_append]

lemma natDigitsAux_spec :
    ∀ fuel n, n < fuel →
      natDigitsAux fuel n ≠ [] ∧ (∀ d ∈ natDigitsAux fuel n, d < 10) ∧
        digitsToNat (natDigitsAux fuel n) = n := by
  intro fuel
  induction fuel with
  | zero => intro n hn; omega
  | succ fuel ih =>
    intro n hn
    by_cases h10 : n < 10
    · refine ⟨by simp [natDigitsAux, h10], ?_, ?_⟩
      · simp [natDigitsAux, h10]
      · simp [natDigitsAux, h10, digitsToNat]
    · have hdiv : n / 10 < fuel := by
        have : n / 10 < n := Nat.div_lt_self (by omega) (by omega)
        omega
      obtain ⟨hne, hlt, hval⟩ := ih (n / 10) hdiv
      refine ⟨?_, ?_, ?_⟩
      · simp [natDigitsAux, h10]
      · intro d hd
        simp only [natDigitsAux, if_neg h10, List.mem_append, List.mem_singleton] at hd
        rcases hd with hd | hd
        · exact hlt d hd
        · subst hd; exact Nat.mod_lt _ (by omega)
      · simp only [natDigitsAux, if_neg h10, digitsToNat_append, hval]
        omega

lemma natDigits_spec (n : Nat) :
    natDigits n ≠ [] ∧ (∀ d ∈ natDigits n, d < 10) ∧
      digitsToNat (natDigits n) = n :=
  natDigitsAux_spec (n + 1) n (Nat.lt_succ_self n)

lemma parseNatChars_map {ds : List Nat} (hne : ds ≠ []) (h : ∀ d ∈ ds, d < 10) :
    parseNatChars (ds.map digitChar) = some (digitsToNat ds) := by
  cases ds with
  | nil => exact absurd rfl hne
  | cons d ds =>
    simp only [List.map_cons, parseNatChars]
    exact digitsVal_map h

lemma data_mk (l : List Char) : (String.mk l).data = l := rfl

lemma pyParseInt_digitStr {ds : List Nat} (hne : ds ≠ []) (h : ∀ d ∈ ds, d < 10) :
    pyParseInt (String.mk (ds.map digitChar)) = some (Int.ofNat (digitsToNat ds)) := by
  cases ds with
  | nil => exact absurd rfl hne
  | cons d ds =>
    have hd : d < 10 := h d (List.mem_cons_self d ds)
    simp only [pyParseInt, data_mk, List.map_cons,
      if_neg (digitChar_ne_dash hd), if_neg (digitChar_ne_plus hd)]
    rw [← List.map_cons digitChar d ds, parseNatChars_map hne h]
    rfl

lemma pyParseInt_intRepr (n : Int) : pyParseInt (intRepr n) = some n := by
  obtain ⟨hne, hlt, hval⟩ := natDigits_spec n.natAbs
  by_cases hneg : n < 0
  · have hdata :
        (intRepr n).data = '-' :: (natDigits n.natAbs).map digitChar := by
      simp [intRepr, if_pos hneg, natRepr, String.data_append]
    rw [pyParseInt, hdata]
    simp [parseNatChars_map hne hlt, hval, abs_of_neg hneg]
  · have hdata : intRepr n = String.mk ((natDigits n.natAbs).map digitChar) := by
      simp [intRepr, if_neg hneg, natRepr]
    rw [hdata, pyParseInt_digitStr hne hlt, hval]
    simp only [Option.some.injEq, Int.ofNat_eq_natCast]
    omega

/-! ### Lemmas: validator characterizations -/

lemma pyEq_str_iff (v : PyVal) (t : String) : pyEq v (.str t) = true ↔ v = .str t := by
  cases v <;> simp [pyEq, pyNum?]

lemma coerceFloat_eq (v : PyVal) :
    coerceFloat v = (pyFloat? v).map .float := rfl

lemma runChain_pair (f g : Validator) (v : PyVal) :
    runChain [f, g] v = (f v).bind g := by
  simp [runChain]

lemma runChain_triple (f g h : Validator) (v : PyVal) :
    runChain [f, g, h] v = ((f v).bind g).bind h := by
  simp [runChain]

lemma posfloat_run_eq (v : PyVal) :
    POSITIVE_FLOAT_SCHEMA.run v =
      match pyFloat? v with
      | some q => if 0 ≤ q then some (.float q) else none
      | none => none := by
  simp only [POSITIVE_FLOAT_SCHEMA, VolAll.run, runChain_pair, coerceFloat]
  cases h : pyFloat? v with
  | none => rfl
  | some q =>
    simp only [Option.map_some, Option.bind_some, volRange, pyNum?]
    by_cases h0 : 0 ≤ q <;> simp [h0]

lemma percent_run_eq (v : PyVal) :
    PERCENT_SCHEMA.run v =
      match pyFloat? v with
      | some q => if 0 ≤ q ∧ q ≤ 100 then some (.float q) else none
      | none => none := by
  simp only [PERCENT_SCHEMA, VolAll.run, runChain_pair, coerceFloat]
  cases h : pyFloat? v with
  | none => rfl
  | some q =>
    simp only [Option.map_some, Option.bind_some, volRange, pyNum?]
    by_cases h0 : 0 ≤ q <;> by_cases h100 : q ≤ 100 <;> simp [h0, h100]

lemma posfloat_run_char (v out : PyVal) :
    POSITIVE_FLOAT_SCHEMA.run v = some out ↔
      ∃ q, pyFloat? v = some q ∧ 0 ≤ q ∧ out = .float q := by
  rw [posfloat_run_eq]
  cases h : pyFloat? v with
  | none => simp
  | some q =>
    dsimp only
    split_ifs with hq <;> simp [hq, eq_comm]

lemma percent_run_char (v out : PyVal) :
    PERCENT_SCHEMA.run v = some out ↔
      ∃ q, pyFloat? v = some q ∧ 0 ≤ q ∧ q ≤ 100 ∧ out = .float q := by
  rw [percent_run_eq]
  cases h : pyFloat? v with
  | none => simp
  | some q =>
    dsimp only
    split_ifs with hq
    · simp [hq.1, hq.2, eq_comm]
    · simp only [Option.some.injEq, false_iff] at hq ⊢
      rintro ⟨q1, hq1, h0, h100, _⟩
      subst hq1
      exact hq ⟨h0, h100⟩

lemma intRepr_inj {a b : Int} (h : intRepr a = intRepr b) : a = b := by
  have ha := pyParseInt_intRepr a
  rw [h, pyParseInt_intRepr] at ha
  injection ha with ha
  exact ha.symm

lemma volIn_rot (v : PyVal) :
    volIn [.str "0", .str "90", .str "180", .str "270"] v =
      if v = .str "0" ∨ v = .str "90" ∨ v = .str "180" ∨ v = .str "270"
      then some v else none := by
  by_cases hv : v = .str "0" ∨ v = .str "90" ∨ v = .str "180" ∨ v = .str "270"
  · rw [if_pos hv]
    rcases hv with rfl | rfl | rfl | rfl <;> decide
  · rw [if_neg hv]
    push_neg at hv
    obtain ⟨h0, h90, h180, h270⟩ := hv
    have e0 : pyEq v (.str "0") = false := by
      rw [← Bool.not_eq_true, pyEq_str_iff]; exact h0
    have e90 : pyEq v (.str "90") = false := by
      rw [← Bool.not_eq_true, pyEq_str_iff]; exact h90
    have e180 : pyEq v (.str "180") = false := by
      rw [← Bool.not_eq_true, pyEq_str_iff]; exact h180
    have e270 : pyEq v (.str "270") = false := by
      rw [← Bool.not_eq_true, pyEq_str_iff]; exact h270
    simp [volIn, e0, e90, e180, e270]

lemma rotation_run_eq (v : PyVal) :
    ROTATION_SCHEMA.run v =
      ((volIn [.str "0", .str "90", .str "180", .str "270"] v).bind
        coerceStr).bind coerceInt := by
  simp [ROTATION_SCHEMA, VolAll.run, discriminant, runChain_triple]

lemma rotation_run_char (v out : PyVal) :
    ROTATION_SCHEMA.run v = some out ↔
      ((v = .str "0" ∧ out = .int 0) ∨ (v = .str "90" ∧ out = .int 90) ∨
       (v = .str "180" ∧ out = .int 180) ∨ (v = .str "270" ∧ out = .int 270)) := by
  rw [rotation_run_eq, volIn_rot]
  by_cases hv : v = .str "0" ∨ v = .str "90" ∨ v = .str "180" ∨ v = .str "270"
  · rw [if_pos hv]
    rcases hv with rfl | rfl | rfl | rfl
    · rw [show ((some (PyVal.str "0")).bind coerceStr).bind coerceInt =
          some (.int 0) from by decide]
      simp [eq_comm]
    · rw [show ((some (PyVal.str "90")).bind coerceStr).bind coerceInt =
          some (.int 90) from by decide]
      simp [eq_comm]
    · rw [show ((some (PyVal.str "180")).bind coerceStr).bind coerceInt =
          some (.int 180) from by decide]
      simp [eq_comm]
    · rw [show ((some (PyVal.str "270")).bind coerceStr).bind coerceInt =
          some (.int 270) from by decide]
      simp [eq_comm]
  · rw [if_neg hv]
    push_neg at hv
    simp [hv.1, hv.2.1, hv.2.2.1, hv.2.2.2]

lemma rotation_call_eq (v : PyVal) :
    ROTATION_SCHEMA.call v =
      ((coerceInt v).bind coerceStr).bind
        (volIn [.str "0", .str "90", .str "180", .str "270"]) := by
  simp [ROTATION_SCHEMA, VolAll.call, runChain_triple]

lemma rotation_call_char (v out : PyVal) :
    ROTATION_SCHEMA.call v = some out ↔
      ∃ n : Int, pyInt? v = some n ∧ (n = 0 ∨ n = 90 ∨ n = 180 ∨ n = 270) ∧
        out = .str (intRepr n) := by
  cases h : pyInt? v with
  | none =>
    rw [rotation_call_eq]
    simp [coerceInt, h]
  | some n =>
    have hchain :
        ROTATION_SCHEMA.call v =
          volIn [.str "0", .str "90", .str "180", .str "270"]
            (.str (intRepr n)) := by
      rw [rotation_call_eq]
      have hc : coerceInt v = some (.int n) := by simp [coerceInt, h]
      rw [hc]
      rfl
    rw [hchain, volIn_rot]
    have key : (PyVal.str (intRepr n) = .str "0" ∨ PyVal.str (intRepr n) = .str "90" ∨
        PyVal.str (intRepr n) = .str "180" ∨ PyVal.str (intRepr n) = .str "270") ↔
        (n = 0 ∨ n = 90 ∨ n = 180 ∨ n = 270) := by
      constructor
      · rintro (hs | hs | hs | hs) <;> injection hs with hs
        · exact Or.inl (intRepr_inj (hs.trans (by decide)))
        · exact Or.inr (Or.inl (intRepr_inj (hs.trans (by decide))))
        · exact Or.inr (Or.inr (Or.inl (intRepr_inj (hs.trans (by decide)))))
        · exact Or.inr (Or.inr (Or.inr (intRepr_inj (hs.trans (by decide)))))
      · rintro (rfl | rfl | rfl | rfl) <;> decide
    by_cases hn : n = 0 ∨ n = 90 ∨ n = 180 ∨ n = 270
    · rw [if_pos (key.mpr hn)]
      simp only [Option.some.injEq]
      constructor
      · rintro rfl; exact ⟨n, rfl, hn, rfl⟩
      · rintro ⟨m, hm, _, rfl⟩
        rw [hm]
    · rw [if_neg (fun hk => hn (key.mp hk))]
      constructor
      · intro hco; cases hco
      · rintro ⟨m, hm, hmem, _⟩
        injection hm with hm
        subst hm
        exact absurd hmem hn

/-! ### Lemmas: camera submission validation -/

lemma validateCamera_mem {raw validated : List (String × PyVal)}
    (h : validateCamera raw = some validated) :
    ∀ kv ∈ validated, ∃ sch v0, assocGet CAMERA_SCHEMA kv.1 = some sch ∧
      sch.run v0 = some kv.2 := by
  induction raw generalizing validated with
  | nil =>
    simp only [validateCamera, Option.some.injEq] at h
    subst h
    simp
  | cons kv0 raw ih =>
    simp only [validateCamera] at h
    cases hh : (assocGet CAMERA_SCHEMA kv0.1).bind fun sch => sch.run kv0.2 with
    | none => rw [hh] at h; simp at h
    | some w =>
      rw [hh] at h
      cases ht : validateCamera raw with
      | none => rw [ht] at h; simp at h
      | some vs =>
        rw [ht] at h
        simp only [Option.map_some', Option.some.injEq] at h
        subst h
        intro kv hkv
        rcases List.mem_cons.mp hkv with rfl | hkv
        · obtain ⟨sch, hsch, hrun⟩ := Option.bind_eq_some.mp hh
          exact ⟨sch, kv0.2, hsch, hrun⟩
        · exact ih ht kv hkv

lemma camera_schema_cases {k : String} {sch : VolAll}
    (h : assocGet CAMERA_SCHEMA k = some sch) :
    (k = kScale ∧ sch = POSITIVE_FLOAT_SCHEMA) ∨
    (k = kRotate ∧ sch = ROTATION_SCHEMA) ∨
    ((k = kLeft ∨ k = kRight ∨ k = kTop ∨ k = kBottom) ∧ sch = PERCENT_SCHEMA) := by
  simp only [CAMERA_SCHEMA, assocGet] at h
  split_ifs at h with h1 h2 h3 h4 h5 h6 <;> simp_all

/-- The per-key shape of a validated camera value: the rotation key
stores an integer drawn from the four right angles, every other camera
key stores a float. -/
def cameraTyped (k : String) (v : PyVal) : Prop :=
  if k = kRotate then
    ∃ n : Int, v = .int n ∧ (n = 0 ∨ n = 90 ∨ n = 180 ∨ n = 270)
  else ∃ q : ℚ, v = .float q

/-- The nested options dict produced by a full camera submission: each
dotted key expanded along its path segments. -/
def camExpand (v1 v2 v3 v4 v5 v6 : PyVal) : NDict :=
  [(CONF_MAP_TRANSFORM, .node
    [(CONF_SCALE, .leaf v1), (CONF_ROTATE, .leaf v2),
     (CONF_TRIM, .node
       [(CONF_LEFT, .leaf v3), (CONF_RIGHT, .leaf v4),
        (CONF_TOP, .leaf v5), (CONF_BOTTOM, .leaf v6)])])]

/-! ### Claims -/

/-- C1: whenever the user step succeeded (the code-request oracle
returned a client) and the code step's login returns non-null login
data, the flow creates an entry titled with the username submitted in
the user step, whose data dict holds exactly three fields: that
username, the login result's `.data`, and the base URL captured from
the client during the user step. -/
theorem code_step_success_creates_entry
    (reqOracle : CodeOracle) (loginOracle : LoginOracle)
    (u code : String) (cl : Client) (d : UserData)
    (hreq : reqOracle (some u) = some cl)
    (hlogin : loginOracle cl code = .ok d) :
    async_step_user reqOracle false flowInit (some u) =
      (⟨[], some cl, some u, some cl.base_url⟩, .showForm "code" [] "") ∧
    async_step_code loginOracle ⟨[], some cl, some u, some cl.base_url⟩
        (some code) =
      (⟨[], some cl, some u, some cl.base_url⟩,
       .createEntry (some u)
         [(CONF_ENTRY_USERNAME, .str u), (CONF_USER_DATA, .user d.data),
          (CONF_BASE_URL, .str cl.base_url)]) := by
  constructor
  · simp [async_step_user, request_code, hreq, flowInit]
  · simp [async_step_code, login, hlogin, EntryVal.ofOptStr]

theorem code_step_success_creates_entry_witness :
    async_step_user (fun _ => some ⟨"https://e"⟩) false flowInit (some "u") =
      (⟨[], some ⟨"https://e"⟩, some "u", some "https://e"⟩,
       .showForm "code" [] "") ∧
    async_step_code (fun _ _ => .ok ⟨[("t", "x")]⟩)
        ⟨[], some ⟨"https://e"⟩, some "u", some "https://e"⟩ (some "1234") =
      (⟨[], some ⟨"https://e"⟩, some "u", some "https://e"⟩,
       .createEntry (some "u")
         [(CONF_ENTRY_USERNAME, .str "u"), (CONF_USER_DATA, .user [("t", "x")]),
          (CONF_BASE_URL, .str "https://e")]) :=
  code_step_success_creates_entry (fun _ => some ⟨"https://e"⟩)
    (fun _ _ => .ok ⟨[("t", "x")]⟩) "u" "1234" ⟨"https://e"⟩ ⟨[("t", "x")]⟩ rfl rfl

/-- C2 counterexample: the options mapping persisted by a camera
submission is not the submitted mapping: the submitted dotted-path key
is absent from the persisted dict, which instead holds a nested
sub-dict. -/
theorem camera_options_not_verbatim :
    (options_async_step_camera (optionsInit []) (some [(kScale, .float 1)])).2 =
      .createEntry "" [(CONF_MAP_TRANSFORM, .node [(CONF_SCALE, .leaf (.float 1))])] ∧
    assocGet [(CONF_MAP_TRANSFORM, NVal.node [(CONF_SCALE, .leaf (.float 1))])]
      kScale = none :=
  ⟨rfl, rfl⟩

/-- C2 amended: a camera submission is persisted as the nested expansion
of the submitted mapping — each dotted-path key, split on dots, leads
through nested sub-dicts to exactly the submitted value, with nothing
else stored. -/
theorem camera_options_nested_expansion (st : OptionsState)
    (v1 v2 v3 v4 v5 v6 : PyVal) :
    options_async_step_camera st (some
        [(kScale, v1), (kRotate, v2), (kLeft, v3),
         (kRight, v4), (kTop, v5), (kBottom, v6)]) =
      ({ st with options := camExpand v1 v2 v3 v4 v5 v6 },
       .createEntry "" (camExpand v1 v2 v3 v4 v5 v6)) ∧
    get_nested_dict (camExpand v1 v2 v3 v4 v5 v6) kScale .none_ = v1 ∧
    get_nested_dict (camExpand v1 v2 v3 v4 v5 v6) kRotate .none_ = v2 ∧
    get_nested_dict (camExpand v1 v2 v3 v4 v5 v6) kLeft .none_ = v3 ∧
    get_nested_dict (camExpand v1 v2 v3 v4 v5 v6) kRight .none_ = v4 ∧
    get_nested_dict (camExpand v1 v2 v3 v4 v5 v6) kTop .none_ = v5 ∧
    get_nested_dict (camExpand v1 v2 v3 v4 v5 v6) kBottom .none_ = v6 :=
  ⟨rfl, rfl, rfl, rfl, rfl, rfl, rfl⟩

/-- C3: every value in a camera submission that passes the host's
schema validation is numeric with the advertised shape — the scale and
the four crop margins are floats, the rotation an integer from
{0, 90, 180, 270}.  (The rotation lands as an integer because the
schema-compiled validator, after the discriminant reversal, ends with
the integer coercion.) -/
theorem camera_submission_values_typed
    {raw validated : List (String × PyVal)}
    (h : validateCamera raw = some validated) :
    ∀ kv ∈ validated, cameraTyped kv.1 kv.2 := by
  intro kv hkv
  obtain ⟨sch, v0, hsch, hrun⟩ := validateCamera_mem h kv hkv
  rcases camera_schema_cases hsch with ⟨hk, rfl⟩ | ⟨hk, rfl⟩ | ⟨hk, rfl⟩
  · obtain ⟨q, _, _, hv⟩ := (posfloat_run_char v0 kv.2).mp hrun
    rw [cameraTyped, hk, if_neg (by decide)]
    exact ⟨q, hv⟩
  · rw [cameraTyped, hk, if_pos rfl]
    rcases (rotation_run_char v0 kv.2).mp hrun with
      ⟨_, hv⟩ | ⟨_, hv⟩ | ⟨_, hv⟩ | ⟨_, hv⟩
    · exact ⟨0, hv, by omega⟩
    · exact ⟨90, hv, by omega⟩
    · exact ⟨180, hv, by omega⟩
    · exact ⟨270, hv, by omega⟩
  · obtain ⟨q, _, _, _, hv⟩ := (percent_run_char v0 kv.2).mp hrun
    rcases hk with hk | hk | hk | hk <;>
      rw [cameraTyped, hk, if_neg (by decide)] <;> exact ⟨q, hv⟩

theorem camera_submission_values_typed_witness :
    cameraTyped (kRotate, PyVal.int 90).1 (kRotate, PyVal.int 90).2 :=
  @camera_submission_values_typed
    [(kScale, .str "1.5"), (kRotate, .str "90"),
     (kLeft, .str "0"), (kRight, .str "0"),
     (kTop, .str "12.5"), (kBottom, .str "100")]
    [(kScale, PyVal.float (mkRat 3 2)), (kRotate, .int 90),
     (kLeft, .float 0), (kRight, .float 0),
     (kTop, .float (mkRat 25 2)), (kBottom, .float 100)]
    (by decide) (kRotate, PyVal.int 90) (by decide)

/-- C4: in any state the host flow engine can actually show the code
form in (starting the flow at the user step), the username, the pending
client handle and the base URL are all set — the code step never runs,
and hence entry creation is never reached, without them. -/
theorem code_step_session_fields_present (st : FlowState)
    (h : ConfigReaches st "code") :
    st.username.isSome ∧ st.client.isSome ∧ st.base_url.isSome :=
  reaches_code_fields st "code" h rfl

theorem code_step_session_fields_present_witness :
    (⟨[], some ⟨"https://e"⟩, some "u", some "https://e"⟩ : FlowState).username.isSome ∧
    (⟨[], some ⟨"https://e"⟩, some "u", some "https://e"⟩ : FlowState).client.isSome ∧
    (⟨[], some ⟨"https://e"⟩, some "u", some "https://e"⟩ : FlowState).base_url.isSome :=
  code_step_session_fields_present _
    (ConfigReaches.stepUser (fun _ => some ⟨"https://e"⟩) false flowInit _
      (some "u") "code" [] "" ConfigReaches.start rfl)

/-- C5 counterexample: the discriminant is not inert.  On the
schema-compiled path — the one that validates submissions — the
rotation validator rejects the integer 90 although its integer coercion
is 90 (so the claimed acceptance set is wrong), and on the string "90"
it outputs the integer 90, not the string form. -/
theorem rotation_validator_discriminant_bites :
    ROTATION_SCHEMA.run (.int 90) = none ∧
    pyInt? (.int 90) = some 90 ∧
    ROTATION_SCHEMA.run (.str "90") = some (.int 90) :=
  ⟨rfl, rfl, rfl⟩

/-- C5 amended: called directly (the path computing form defaults) the
rotation validator behaves as the claim says: sub-validators in listed
order, accepting exactly the inputs whose integer coercion is 0, 90,
180 or 270, and returning the string form.  But compiled inside a
schema (the path validating submissions), the discriminant reverses the
sub-validator list, so the membership test runs first: exactly the four
strings are accepted and the output is the corresponding integer. -/
theorem rotation_validator_characterization (v out : PyVal) :
    (ROTATION_SCHEMA.run v = some out ↔
      ((v = .str "0" ∧ out = .int 0) ∨ (v = .str "90" ∧ out = .int 90) ∨
       (v = .str "180" ∧ out = .int 180) ∨ (v = .str "270" ∧ out = .int 270))) ∧
    (ROTATION_SCHEMA.call v = some out ↔
      ∃ n : Int, pyInt? v = some n ∧ (n = 0 ∨ n = 90 ∨ n = 180 ∨ n = 270) ∧
        out = .str (intRepr n)) :=
  ⟨rotation_run_char v out, rotation_call_char v out⟩

/-- C6: the scale validator accepts exactly the inputs coercible to a
float that is at least 0, each crop-margin validator exactly the inputs
coercible to a float in [0, 100]; everything else is rejected, and the
two validators behave the same whether called directly or compiled in a
schema (they carry no discriminant). -/
theorem float_validators_characterization (v out : PyVal) :
    (POSITIVE_FLOAT_SCHEMA.run v = some out ↔
      ∃ q, pyFloat? v = some q ∧ 0 ≤ q ∧ out = .float q) ∧
    (PERCENT_SCHEMA.run v = some out ↔
      ∃ q, pyFloat? v = some q ∧ 0 ≤ q ∧ q ≤ 100 ∧ out = .float q) ∧
    POSITIVE_FLOAT_SCHEMA.call = POSITIVE_FLOAT_SCHEMA.run ∧
    PERCENT_SCHEMA.call = PERCENT_SCHEMA.run :=
  ⟨posfloat_run_char v out, percent_run_char v out, rfl, rfl⟩

/-- C7: when the code request raises, the user step stores no client
handle, records the "auth" error under "base", and shows the user form
again (with the submitted username as the field default), not the code
form. -/
theorem user_step_request_code_failure (oracle : CodeOracle)
    (st : FlowState) (u : String) (h : oracle (some u) = none) :
    async_step_user oracle false st (some u) =
      ({ st with errors := [("base", "auth")], username := some u },
       .showForm "user" [("base", "auth")] u) := by
  simp [async_step_user, request_code, h, assocSet]

theorem user_step_request_code_failure_witness :
    async_step_user (fun _ => none) false flowInit (some "u") =
      ({ flowInit with errors := [("base", "auth")], username := some "u" },
       .showForm "user" [("base", "auth")] "u") :=
  user_step_request_code_failure (fun _ => none) flowInit "u" rfl

/-- C8: a fresh flow handler starts with no errors and the username,
client handle and base URL all unset; the constructor takes no persisted
input, and a user-step call without a submission populates nothing. -/
theorem flow_handler_initial_state :
    flowInit = ⟨[], none, none, none⟩ ∧
    ∀ (oracle : CodeOracle) (cfg : Bool),
      async_step_user oracle cfg flowInit none =
        (flowInit, .showForm "user" [] "") :=
  ⟨rfl, fun _ _ => rfl⟩

/-- C9: selecting the vacuum platform creates the options entry at once
with exactly the options copied from the config entry at handler
construction — no camera transform field (or any other field) is
changed. -/
theorem vacuum_selection_preserves_options (eo : NDict) :
    (optionsInit eo).options = eo ∧
    options_async_step_user (optionsInit eo)
        (some [(CONF_PLATFORM, .str VACUUM)]) =
      (optionsInit eo, .createEntry "" eo) :=
  ⟨rfl, rfl⟩

/-- C10: when login fails — the client raises, the client returns null
login data, or no client is present at all — the code step creates no
entry: it shows the code form again with exactly the "no_device" error
under "base" (overwriting the "auth" error the login helper records in
the exception case). -/
theorem code_step_login_failure (oracle : LoginOracle) (st : FlowState)
    (code : String)
    (h : st.client = none ∨ ∃ c, st.client = some c ∧
        (oracle c code = .raised ∨ oracle c code = .retNone)) :
    async_step_code oracle st (some code) =
      ({ st with errors := [("base", "no_device")] },
       .showForm "code" [("base", "no_device")] code) := by
  rcases h with hc | ⟨c, hc, ho | ho⟩
  · simp [async_step_code, login, hc, assocSet]
  · simp [async_step_code, login, hc, ho, assocSet]
  · simp [async_step_code, login, hc, ho, assocSet]

theorem code_step_login_failure_witness :
    async_step_code (fun _ _ => .raised) flowInit (some "1234") =
      ({ flowInit with errors := [("base", "no_device")] },
       .showForm "code" [("base", "no_device")] "1234") :=
  code_step_login_failure (fun _ _ => .raised) flowInit "1234" (Or.inl rfl)

end Roborock
